import Mathlib

/-!
Shallow embedding of the voting backend (Flask + SQLAlchemy service layer).

The relational store is modelled as an explicit `DB` record of table rows.
Service functions from `src/backend/src/services/election_service.py` are
translated into pure Lean functions that thread the `DB` state explicitly.
Fallible Python paths (raised exceptions) are modelled with `Except`.

Concurrency is modelled where a claim needs it: `record_vote` takes an
`interference` list standing for Vote rows committed by concurrent
transactions between the duplicate-vote existence check and the insert;
the storage uniqueness constraint `uq_vote_election_voter` is checked at
insert time against the union of the rows seen at check time and the
interference rows. With `interference = []` the function is the plain
sequential semantics of the Python code.
-/

/-- Row of the `users` table (model `User` in `src/models/__init__.py`). -/
structure User where
  id : Nat
  wallet_address : String
  is_admin : Bool
deriving DecidableEq, Repr

/-- Row of the `candidates` table. -/
structure Candidate where
  id : Nat
  name : String
deriving DecidableEq, Repr

/-- Row of the `elections` table, with its many-to-many candidate list
(the `election_candidates` association) inlined in creation order. -/
structure Election where
  id : Nat
  title : String
  description : String
  created_by : Nat
  candidates : List Candidate
deriving DecidableEq, Repr

/-- Row of the `votes` table. The table carries the uniqueness constraint
`uq_vote_election_voter` on (election_id, voter_id). -/
structure Vote where
  id : Nat
  election_id : Nat
  voter_id : Nat
  candidate_id : Nat
  tx_hash : String
deriving DecidableEq, Repr

/-- The relational store: table contents plus the auto-increment counters
that assign primary keys at flush time. -/
structure DB where
  users : List User
  elections : List Election
  candidates : List Candidate
  votes : List Vote
  nextUserId : Nat
  nextElectionId : Nat
  nextCandidateId : Nat
  nextVoteId : Nat
deriving DecidableEq, Repr

/-- Python truthiness of an optional string: `None` and the empty string
are falsy, every other string is truthy. -/
def pyTruthyStr : Option String → Bool
  | none => false
  | some s => !(s == "")

/-- Blockchain descriptor dicts produced by `_format_blockchain_info`. -/
inductive BlockchainInfo where
  | submitted (tx_hash : String)
  | skipped (message : String)
deriving DecidableEq, Repr

/-- Embedding of `_format_blockchain_info` (election_service.py lines 19-28). -/
def format_blockchain_info (tx_hash : Option String) : BlockchainInfo :=
  if pyTruthyStr tx_hash then BlockchainInfo.submitted (tx_hash.getD "")
  else BlockchainInfo.skipped "Blockchain transaction hash not provided"

/-- Result dict of `record_vote`: either the ok payload with the persisted
vote and the blockchain descriptor, or an error dict with message and code. -/
inductive VoteOutcome where
  | ok (vote : Vote) (blockchain : BlockchainInfo)
  | error (message : String) (code : Nat)
deriving DecidableEq, Repr

/-- A raised storage exception that escapes the service function; the
session scope rolls the transaction back, so no `DB` is carried. -/
inductive PyError where
  | integrityError (constraint : String)
deriving DecidableEq, Repr

/-- Embedding of the shared lookup-or-create pattern on the `users` table:
`record_vote` lines 112-116 and the login route lines 31-39 both look a
wallet up by exact string equality on `wallet_address` and lazily create a
non-admin row when no exact match exists. -/
def resolve_user (db : DB) (wallet : String) : DB × User :=
  match db.users.find? (fun u => u.wallet_address == wallet) with
  | some u => (db, u)
  | none =>
    let u : User := ⟨db.nextUserId, wallet, false⟩
    ({ db with users := db.users ++ [u], nextUserId := db.nextUserId + 1 }, u)

/-- Embedding of the candidate scan in `record_vote` lines 127-131:
enumerate the election candidate list and return the index of the first
candidate whose id matches. -/
def candidate_index (cands : List Candidate) (candidate_id : Nat) : Option Nat :=
  cands.findIdx? (fun c => c.id == candidate_id)

/-- Embedding of `record_vote` (election_service.py lines 108-168).
`interference` stands for Vote rows committed by concurrent transactions
between the existence check (lines 142-146) and the insert flush (line
161); the storage constraint `uq_vote_election_voter` rejects the insert
when a conflicting row is visible at insert time. The Python function has
no try/except around the insert, so a constraint violation there escapes
as a raised `IntegrityError`, modelled as `Except.error`. -/
def record_vote (db : DB) (interference : List Vote) (election_id candidate_id : Nat)
    (wallet : String) (tx_hash : Option String) : Except PyError (DB × VoteOutcome) :=
  let db1 := (resolve_user db wallet).1
  let user := (resolve_user db wallet).2
  match db1.elections.find? (fun e => e.id == election_id) with
  | none => Except.ok (db1, VoteOutcome.error "Election not found" 404)
  | some election =>
    match candidate_index election.candidates candidate_id with
    | none => Except.ok (db1, VoteOutcome.error "Candidate not found" 404)
    | some _ =>
      if !(pyTruthyStr tx_hash) then
        Except.ok (db1, VoteOutcome.error "txHash is required to register blockchain votes" 400)
      else
        match db1.votes.find? (fun v => v.election_id == election_id && v.voter_id == user.id) with
        | some _ =>
          Except.ok (db1, VoteOutcome.error "Wallet already voted for this election" 409)
        | none =>
          if (db1.votes ++ interference).any
              (fun v => v.election_id == election_id && v.voter_id == user.id) then
            Except.error (PyError.integrityError "uq_vote_election_voter")
          else
            let vote : Vote := ⟨db1.nextVoteId, election_id, user.id, candidate_id, tx_hash.getD ""⟩
            Except.ok
              ({ db1 with votes := db1.votes ++ [vote], nextVoteId := db1.nextVoteId + 1 },
               VoteOutcome.ok vote (format_blockchain_info tx_hash))

/-- Concrete store used to evaluate the service functions: one admin user
with wallet 0xaaa, one election with candidates Alice and Bob, no votes. -/
def demoDB : DB :=
  { users := [⟨1, "0xaaa", false⟩]
  , elections := [⟨1, "Test", "demo", 1, [⟨1, "Alice"⟩, ⟨2, "Bob"⟩]⟩]
  , candidates := [⟨1, "Alice"⟩, ⟨2, "Bob"⟩]
  , votes := []
  , nextUserId := 2
  , nextElectionId := 2
  , nextCandidateId := 3
  , nextVoteId := 1 }

/-- The demo store after user 1 has already voted in election 1. -/
def demoDBArchivedVote : DB :=
  { demoDB with votes := [⟨1, 1, 1, 1, "0xold"⟩], nextVoteId := 2 }

/-- Votes are untouched by the user lookup-or-create step. -/
theorem resolve_user_votes (db : DB) (w : String) : (resolve_user db w).1.votes = db.votes := by
  unfold resolve_user
  cases db.users.find? (fun u => u.wallet_address == w) <;> rfl

/-- C1: the duplicate-vote pre-check does return error 409 on a prior vote, but a
storage-level uniqueness violation at the insert step (conflicting row committed
between the existence check and the insert) is NOT caught inside record_vote: it
escapes as a raised IntegrityError instead of the claimed error 409. -/
theorem record_vote_race_not_caught :
    record_vote demoDBArchivedVote [] 1 1 "0xaaa" (some "0xref")
      = Except.ok (demoDBArchivedVote,
          VoteOutcome.error "Wallet already voted for this election" 409)
    ∧ record_vote demoDB [⟨1, 1, 1, 1, "0xother"⟩] 1 1 "0xaaa" (some "0xref")
      = Except.error (PyError.integrityError "uq_vote_election_voter") := by
  exact ⟨by rfl, by rfl⟩

/-- C2: record_vote follows the specified state machine in order: missing
election gives error 404, unknown candidate id gives error 404 Candidate not
found, a falsy transaction hash gives error 400, an existing vote for the
(election, voter) pair gives error 409, and otherwise the vote is persisted and
the ok payload carries a blockchain descriptor submitted with the supplied
transaction reference. -/
theorem record_vote_state_machine (db : DB) (eid cid : Nat) (w : String) (tx : Option String) :
    ((resolve_user db w).1.elections.find? (fun e => e.id == eid) = none →
        record_vote db [] eid cid w tx
          = Except.ok ((resolve_user db w).1, VoteOutcome.error "Election not found" 404))
    ∧ (∀ e, (resolve_user db w).1.elections.find? (fun x => x.id == eid) = some e →
        candidate_index e.candidates cid = none →
        record_vote db [] eid cid w tx
          = Except.ok ((resolve_user db w).1, VoteOutcome.error "Candidate not found" 404))
    ∧ (∀ e i, (resolve_user db w).1.elections.find? (fun x => x.id == eid) = some e →
        candidate_index e.candidates cid = some i →
        pyTruthyStr tx = false →
        record_vote db [] eid cid w tx
          = Except.ok ((resolve_user db w).1,
              VoteOutcome.error "txHash is required to register blockchain votes" 400))
    ∧ (∀ e i v, (resolve_user db w).1.elections.find? (fun x => x.id == eid) = some e →
        candidate_index e.candidates cid = some i →
        pyTruthyStr tx = true →
        (resolve_user db w).1.votes.find?
            (fun v2 => v2.election_id == eid && v2.voter_id == (resolve_user db w).2.id)
          = some v →
        record_vote db [] eid cid w tx
          = Except.ok ((resolve_user db w).1,
              VoteOutcome.error "Wallet already voted for this election" 409))
    ∧ (∀ e i, (resolve_user db w).1.elections.find? (fun x => x.id == eid) = some e →
        candidate_index e.candidates cid = some i →
        pyTruthyStr tx = true →
        (resolve_user db w).1.votes.find?
            (fun v2 => v2.election_id == eid && v2.voter_id == (resolve_user db w).2.id)
          = none →
        record_vote db [] eid cid w tx
          = Except.ok ({ (resolve_user db w).1 with
                votes := (resolve_user db w).1.votes ++
                  [⟨(resolve_user db w).1.nextVoteId, eid, (resolve_user db w).2.id, cid,
                    tx.getD ""⟩],
                nextVoteId := (resolve_user db w).1.nextVoteId + 1 },
              VoteOutcome.ok
                ⟨(resolve_user db w).1.nextVoteId, eid, (resolve_user db w).2.id, cid, tx.getD ""⟩
                (BlockchainInfo.submitted (tx.getD "")))) := by
  refine ⟨?_, ?_, ?_, ?_, ?_⟩
  · intro h
    simp only [record_vote, h]
  · intro e he hc
    simp only [record_vote, he, hc]
  · intro e i he hc htx
    simp only [record_vote, he, hc, htx]
    rfl
  · intro e i v he hc htx hv
    simp only [record_vote, he, hc, htx, hv]
    rfl
  · intro e i he hc htx hv
    have hany : ((resolve_user db w).1.votes ++ ([] : List Vote)).any
        (fun v2 => v2.election_id == eid && v2.voter_id == (resolve_user db w).2.id) = false := by
      rw [List.append_nil, List.any_eq_false]
      intro x hx
      have := List.find?_eq_none.mp hv x hx
      simpa using this
    simp only [record_vote, he, hc, htx, hv, hany]
    simp [format_blockchain_info, htx]

/-- C2 witness: a concrete successful vote in the demo store. -/
theorem record_vote_state_machine_witness :
    record_vote demoDB [] 1 2 "0xaaa" (some "0xref")
      = Except.ok ({ (resolve_user demoDB "0xaaa").1 with
            votes := (resolve_user demoDB "0xaaa").1.votes ++
              [⟨(resolve_user demoDB "0xaaa").1.nextVoteId, 1, (resolve_user demoDB "0xaaa").2.id,
                2, "0xref"⟩],
            nextVoteId := (resolve_user demoDB "0xaaa").1.nextVoteId + 1 },
          VoteOutcome.ok
            ⟨(resolve_user demoDB "0xaaa").1.nextVoteId, 1, (resolve_user demoDB "0xaaa").2.id,
              2, "0xref"⟩
            (BlockchainInfo.submitted "0xref")) :=
  (record_vote_state_machine demoDB 1 2 "0xaaa" (some "0xref")).2.2.2.2
    ⟨1, "Test", "demo", 1, [⟨1, "Alice"⟩, ⟨2, "Bob"⟩]⟩ 1
    (by decide) (by decide) (by decide) (by decide)

/-- C3: a candidate id outside the election candidate list yields error 404
Candidate not found, and every error outcome of record_vote leaves the set of
Vote rows unchanged. -/
theorem record_vote_error_preserves_votes
    (db : DB) (interference : List Vote) (eid cid : Nat) (w : String) (tx : Option String) :
    (∀ e, (resolve_user db w).1.elections.find? (fun x => x.id == eid) = some e →
        candidate_index e.candidates cid = none →
        record_vote db interference eid cid w tx
          = Except.ok ((resolve_user db w).1, VoteOutcome.error "Candidate not found" 404)
          ∧ (resolve_user db w).1.votes = db.votes)
    ∧ (∀ db2 msg code,
        record_vote db interference eid cid w tx = Except.ok (db2, VoteOutcome.error msg code) →
        db2.votes = db.votes) := by
  constructor
  · intro e he hc
    refine ⟨?_, resolve_user_votes db w⟩
    simp only [record_vote, he, hc]
  · intro db2 msg code h
    simp only [record_vote] at h
    split at h
    · rw [Except.ok.injEq, Prod.mk.injEq] at h
      rw [← h.1, resolve_user_votes]
    · split at h
      · rw [Except.ok.injEq, Prod.mk.injEq] at h
        rw [← h.1, resolve_user_votes]
      · split at h
        · rw [Except.ok.injEq, Prod.mk.injEq] at h
          rw [← h.1, resolve_user_votes]
        · split at h
          · rw [Except.ok.injEq, Prod.mk.injEq] at h
            rw [← h.1, resolve_user_votes]
          · split at h
            · exact absurd h (by simp)
            · rw [Except.ok.injEq, Prod.mk.injEq] at h
              exact absurd h.2 (by simp)

/-- C3 witness: voting for candidate 99 in the demo store. -/
theorem record_vote_error_preserves_votes_witness :
    (record_vote demoDB [] 1 99 "0xaaa" (some "0xref")
        = Except.ok ((resolve_user demoDB "0xaaa").1, VoteOutcome.error "Candidate not found" 404)
        ∧ (resolve_user demoDB "0xaaa").1.votes = demoDB.votes) :=
  (record_vote_error_preserves_votes demoDB [] 1 99 "0xaaa" (some "0xref")).1
    ⟨1, "Test", "demo", 1, [⟨1, "Alice"⟩, ⟨2, "Bob"⟩]⟩ (by decide) (by decide)

/-- The ledger contract as seen by the service: the electionCount view call
and the getResults view call, each of which may fail (network, revert,
decode), modelled as `Except`. -/
structure ChainService where
  electionCount : Except Unit Nat
  getResultsCall : Int → Except Unit (List String × List Nat)

/-- Embedding of `_resolve_chain_election_id` (election_service.py lines
41-63): subtract one, reject negatives, validate against the ledger count,
and fall back to the computed id when the count query raises. -/
def resolve_chain_election_id (election_id : Int) (svc : ChainService) : Option Int :=
  let chain_election_id := election_id - 1
  if chain_election_id < 0 then none
  else
    match svc.electionCount with
    | Except.error _ => some chain_election_id
    | Except.ok election_count =>
      if chain_election_id ≥ (election_count : Int) then none
      else some chain_election_id

/-- Embedding of `BlockchainService.fetch_results` (blockchain_service.py
lines 65-70): any raised error from the getResults call is swallowed and
surfaced as `none`. -/
def fetch_results (svc : ChainService) (election_id : Int) : Option (List String × List Nat) :=
  match svc.getResultsCall election_id with
  | Except.ok r => some r
  | Except.error _ => none

/-- One entry of the module-level `_chain_cache` dict: capture timestamp
plus the cached (candidate names, vote counts) tally. -/
structure CacheEntry where
  cached_at : Nat
  names : List String
  counts : List Nat
deriving DecidableEq, Repr

/-- The `_chain_cache` dict, keyed by local election id. -/
abbrev ChainCache := List (Nat × CacheEntry)

/-- Default of `CACHE_TTL_SECONDS = int(os.getenv("CHAIN_CACHE_TTL", "30"))`. -/
def CACHE_TTL_SECONDS_default : Nat := 30

/-- Embedding of `_get_cached_chain_results` (lines 258-268): absent key is
a miss; an entry older than the ttl is popped and is a miss; otherwise the
stored tally and its capture timestamp are returned. Time is an abstract
`Nat` clock (`now` stands for `datetime.utcnow()`). -/
def get_cached_chain_results (cache : ChainCache) (now ttl : Nat) (election_id : Nat) :
    ChainCache × Option (List String × List Nat × Nat) :=
  match cache.find? (fun p => p.1 == election_id) with
  | none => (cache, none)
  | some p =>
    if now - p.2.cached_at > ttl then
      (cache.filter (fun q => !(q.1 == election_id)), none)
    else
      (cache, some (p.2.names, p.2.counts, p.2.cached_at))

/-- Embedding of `_store_chain_results` (lines 271-274): unconditional
overwrite timestamped at call time. -/
def store_chain_results (cache : ChainCache) (now : Nat) (election_id : Nat)
    (names : List String) (counts : List Nat) : ChainCache :=
  (election_id, ⟨now, names, counts⟩) :: cache.filter (fun q => !(q.1 == election_id))

/-- The `blockchain` metadata dict of a results view. -/
structure BlockchainMeta where
  status : String
  cached : Bool
  last_synced : Option Nat
deriving DecidableEq, Repr

/-- The dict returned by `get_election_results` for a found election. -/
structure ResultsView where
  election : Election
  results : List (String × Nat)
  source : String
  blockchain : BlockchainMeta
deriving DecidableEq, Repr

/-- The local fallback tally (lines 186-194 and 242-248): for each candidate
of the election in order, the number of Vote rows for this election whose
candidate id matches. -/
def local_tally (db : DB) (election_id : Nat) (cands : List Candidate) : List (String × Nat) :=
  cands.map (fun c =>
    (c.name,
     (db.votes.filter (fun v => v.election_id == election_id && v.candidate_id == c.id)).length))

/-- The ledger-tally rendering (lines 237-240): pair names and counts by
index over the names list. -/
def chain_format (names : List String) (counts : List Nat) : List (String × Nat) :=
  (List.range names.length).map (fun i => (names.getD i "", counts.getD i 0))

/-- Output of `get_election_results` together with the updated cache and the
number of gateway calls made (id resolutions and tally fetches), for the
call-count claims. -/
structure GetResultsOut where
  view : Option ResultsView
  cache : ChainCache
  resolveCalls : Nat
  fetchCalls : Nat
deriving Repr

/-- Embedding of `get_election_results` (election_service.py lines 171-255).
`svc` is the result of `get_blockchain_service()` (`none` when the service
is unconfigured). -/
def get_election_results (db : DB) (cache : ChainCache) (svc : Option ChainService)
    (now ttl : Nat) (election_id : Nat) (include_blockchain : Bool) : GetResultsOut :=
  match db.elections.find? (fun e => e.id == election_id) with
  | none => ⟨none, cache, 0, 0⟩
  | some election =>
    let localCounts := local_tally db election_id election.candidates
    if !include_blockchain then
      ⟨some ⟨election, localCounts, "database", ⟨"skipped", false, none⟩⟩, cache, 0, 0⟩
    else
      let looked := get_cached_chain_results cache now ttl election_id
      match looked.2 with
      | some (names, counts, cached_at) =>
        ⟨some ⟨election, chain_format names counts, "blockchain",
            ⟨"cached", true, some cached_at⟩⟩, looked.1, 0, 0⟩
      | none =>
        match svc with
        | none =>
          ⟨some ⟨election, localCounts, "database", ⟨"disabled", false, none⟩⟩, looked.1, 0, 0⟩
        | some s =>
          match resolve_chain_election_id (election_id : Int) s with
          | none =>
            ⟨some ⟨election, localCounts, "database", ⟨"not_found", false, none⟩⟩, looked.1, 1, 0⟩
          | some chain_election_id =>
            match fetch_results s chain_election_id with
            | some (names, counts) =>
              ⟨some ⟨election, chain_format names counts, "blockchain", ⟨"fresh", false, some now⟩⟩,
               store_chain_results looked.1 now election_id names counts, 1, 1⟩
            | none =>
              ⟨some ⟨election, localCounts, "database", ⟨"missing", false, none⟩⟩, looked.1, 1, 1⟩

/-- C4: the ledger id of local election L is L - 1; the result is none when the
computed id is negative or at least the ledger election count; and when the
count query fails the computed id is returned anyway, deferring validation to
the ledger operation that uses it. -/
theorem resolve_chain_election_id_spec (L : Int) (svc : ChainService) :
    (L - 1 < 0 → resolve_chain_election_id L svc = none)
    ∧ (∀ c, svc.electionCount = Except.ok c → 0 ≤ L - 1 →
        ((L - 1 ≥ (c : Int) → resolve_chain_election_id L svc = none)
         ∧ (L - 1 < (c : Int) → resolve_chain_election_id L svc = some (L - 1))))
    ∧ (∀ u, svc.electionCount = Except.error u → 0 ≤ L - 1 →
        resolve_chain_election_id L svc = some (L - 1)) := by
  refine ⟨?_, ?_, ?_⟩
  · intro h
    simp only [resolve_chain_election_id, if_pos h]
  · intro c hc hge
    have hnot : ¬ (L - 1 < 0) := not_lt.mpr hge
    constructor
    · intro hbig
      simp only [resolve_chain_election_id, if_neg hnot, hc, if_pos hbig]
    · intro hsmall
      simp only [resolve_chain_election_id, if_neg hnot, hc, if_neg (not_le.mpr hsmall)]
  · intro u hu hge
    have hnot : ¬ (L - 1 < 0) := not_lt.mpr hge
    simp only [resolve_chain_election_id, if_neg hnot, hu]

/-- C4 witness: local id 3 against a ledger whose count query fails resolves to
ledger id 2. -/
theorem resolve_chain_election_id_spec_witness :
    resolve_chain_election_id 3 ⟨Except.error (), fun _ => Except.error ()⟩ = some 2 := by
  have h := (resolve_chain_election_id_spec 3 ⟨Except.error (), fun _ => Except.error ()⟩).2.2
    () rfl (by norm_num)
  simpa using h

/-- C5: a cache lookup is a miss when no entry exists and when the entry age
exceeds the time-to-live, and an expired entry is purged by the lookup itself;
within the time-to-live the lookup returns the stored tally, and
get_election_results then reports the view as cached with the entry capture
timestamp and performs no gateway call. -/
theorem chain_cache_ttl_semantics (cache : ChainCache) (now ttl eid : Nat) :
    (cache.find? (fun p => p.1 == eid) = none →
        get_cached_chain_results cache now ttl eid = (cache, none))
    ∧ (∀ p, cache.find? (fun q => q.1 == eid) = some p →
        now - p.2.cached_at > ttl →
        get_cached_chain_results cache now ttl eid
          = (cache.filter (fun q => !(q.1 == eid)), none)
        ∧ (cache.filter (fun q => !(q.1 == eid))).find? (fun q => q.1 == eid) = none)
    ∧ (∀ p, cache.find? (fun q => q.1 == eid) = some p →
        ¬ (now - p.2.cached_at > ttl) →
        get_cached_chain_results cache now ttl eid
          = (cache, some (p.2.names, p.2.counts, p.2.cached_at)))
    ∧ (∀ (db : DB) (svc : Option ChainService) p,
        cache.find? (fun q => q.1 == eid) = some p →
        ¬ (now - p.2.cached_at > ttl) →
        ∀ e, db.elections.find? (fun x => x.id == eid) = some e →
        get_election_results db cache svc now ttl eid true
          = ⟨some ⟨e, chain_format p.2.names p.2.counts, "blockchain",
                ⟨"cached", true, some p.2.cached_at⟩⟩, cache, 0, 0⟩) := by
  refine ⟨?_, ?_, ?_, ?_⟩
  · intro h
    simp only [get_cached_chain_results, h]
  · intro p hp hexp
    refine ⟨by simp only [get_cached_chain_results, hp, if_pos hexp], ?_⟩
    rw [List.find?_eq_none]
    intro q hq
    have := (List.mem_filter.mp hq).2
    simp only [Bool.not_eq_true'] at this
    simp [this]
  · intro p hp hfresh
    simp only [get_cached_chain_results, hp, if_neg hfresh]
  · intro db svc p hp hfresh e he
    have hcached : get_cached_chain_results cache now ttl eid
        = (cache, some (p.2.names, p.2.counts, p.2.cached_at)) := by
      simp only [get_cached_chain_results, hp, if_neg hfresh]
    simp [get_election_results, he, hcached]

/-- C5 witness: a five-time-unit-old entry with a ttl of thirty is a hit and
get_election_results reports it as cached without touching the gateway. -/
theorem chain_cache_ttl_semantics_witness :
    get_election_results demoDB [(1, ⟨10, ["Alice", "Bob"], [3, 4]⟩)] none 15 30 1 true
      = ⟨some ⟨⟨1, "Test", "demo", 1, [⟨1, "Alice"⟩, ⟨2, "Bob"⟩]⟩,
            chain_format ["Alice", "Bob"] [3, 4], "blockchain",
            ⟨"cached", true, some 10⟩⟩, [(1, ⟨10, ["Alice", "Bob"], [3, 4]⟩)], 0, 0⟩ :=
  (chain_cache_ttl_semantics [(1, ⟨10, ["Alice", "Bob"], [3, 4]⟩)] 15 30 1).2.2.2
    demoDB none (1, ⟨10, ["Alice", "Bob"], [3, 4]⟩) (by rfl) (by decide)
    ⟨1, "Test", "demo", 1, [⟨1, "Alice"⟩, ⟨2, "Bob"⟩]⟩ (by rfl)

/-- C6: with include_blockchain false, get_election_results makes no gateway
call and every returned view has source database; in general the source is
blockchain exactly when the view status is cached or fresh (a ledger tally
supplied the counts), and otherwise the source is database and the counts are
the local tally. -/
theorem get_results_source_semantics (db : DB) (cache : ChainCache) (svc : Option ChainService)
    (now ttl eid : Nat) :
    ((get_election_results db cache svc now ttl eid false).resolveCalls = 0
      ∧ (get_election_results db cache svc now ttl eid false).fetchCalls = 0
      ∧ ∀ v, (get_election_results db cache svc now ttl eid false).view = some v →
          v.source = "database")
    ∧ (∀ (include_blockchain : Bool) v,
        (get_election_results db cache svc now ttl eid include_blockchain).view = some v →
        ((v.source = "blockchain"
            ↔ (v.blockchain.status = "cached" ∨ v.blockchain.status = "fresh"))
         ∧ (¬ v.source = "blockchain" →
             v.source = "database" ∧ v.results = local_tally db eid v.election.candidates))) := by
  constructor
  · cases hfind : db.elections.find? (fun e => e.id == eid) with
    | none =>
      refine ⟨?_, ?_, ?_⟩ <;> simp [get_election_results, hfind]
    | some e =>
      refine ⟨?_, ?_, ?_⟩ <;> simp [get_election_results, hfind]
  · intro inc v hv
    obtain ⟨ve, vr, vs, vb⟩ := v
    cases hfind : db.elections.find? (fun e => e.id == eid) with
    | none => simp [get_election_results, hfind] at hv
    | some e =>
      cases inc with
      | false =>
        simp [get_election_results, hfind] at hv
        obtain ⟨h1, h2, h3, h4⟩ := hv
        subst h1; subst h2; subst h3; subst h4
        simp
      | true =>
        rcases hcache : (get_cached_chain_results cache now ttl eid).2 with
          _ | ⟨⟨names, counts, cached_at⟩⟩
        · cases hsvc : svc with
          | none =>
            simp [get_election_results, hfind, hcache, hsvc] at hv
            obtain ⟨h1, h2, h3, h4⟩ := hv
            subst h1; subst h2; subst h3; subst h4
            simp
          | some s =>
            cases hres : resolve_chain_election_id (eid : Int) s with
            | none =>
              simp [get_election_results, hfind, hcache, hsvc, hres] at hv
              obtain ⟨h1, h2, h3, h4⟩ := hv
              subst h1; subst h2; subst h3; subst h4
              simp
            | some cid =>
              cases hfetch : fetch_results s cid with
              | none =>
                simp [get_election_results, hfind, hcache, hsvc, hres, hfetch] at hv
                obtain ⟨h1, h2, h3, h4⟩ := hv
                subst h1; subst h2; subst h3; subst h4
                simp
              | some t =>
                obtain ⟨names2, counts2⟩ := t
                simp [get_election_results, hfind, hcache, hsvc, hres, hfetch] at hv
                obtain ⟨h1, h2, h3, h4⟩ := hv
                subst h1; subst h2; subst h3; subst h4
                simp
        · simp [get_election_results, hfind, hcache] at hv
          obtain ⟨h1, h2, h3, h4⟩ := hv
          subst h1; subst h2; subst h3; subst h4
          simp

/-- C6 witness: in the demo store with the gateway unconfigured and the ledger
excluded, no gateway call is made and the view source is database. -/
theorem get_results_source_semantics_witness :
    (get_election_results demoDB [] none 0 30 1 false).resolveCalls = 0
    ∧ (get_election_results demoDB [] none 0 30 1 false).fetchCalls = 0
    ∧ (ResultsView.source
        ⟨⟨1, "Test", "demo", 1, [⟨1, "Alice"⟩, ⟨2, "Bob"⟩]⟩,
         [("Alice", 0), ("Bob", 0)], "database", ⟨"skipped", false, none⟩⟩ = "database") := by
  have h := (get_results_source_semantics demoDB [] none 0 30 1).1
  exact ⟨h.1, h.2.1, h.2.2 _ (by rfl)⟩

/-- C7: fetch_results is total and swallows every failing getResults call into
none, never letting the failure escape the gateway boundary; and when the
ledger path of get_election_results fails on a cache miss the view carries the
specific reason, disabled when the service is unconfigured, not_found when id
resolution fails, missing when the tally fetch fails, with the counts falling
back to the local tally in every case. -/
theorem ledger_failure_fallback (db : DB) (cache : ChainCache) (now ttl eid : Nat) :
    (∀ (s : ChainService) (cid : Int) (u : Unit), s.getResultsCall cid = Except.error u →
        fetch_results s cid = none)
    ∧ (∀ (s : ChainService) (cid : Int),
        fetch_results s cid = none ∨ ∃ t, fetch_results s cid = some t)
    ∧ (∀ e, db.elections.find? (fun x => x.id == eid) = some e →
        (get_cached_chain_results cache now ttl eid).2 = none →
        ((get_election_results db cache none now ttl eid true
            = ⟨some ⟨e, local_tally db eid e.candidates, "database", ⟨"disabled", false, none⟩⟩,
               (get_cached_chain_results cache now ttl eid).1, 0, 0⟩)
         ∧ (∀ s, resolve_chain_election_id (eid : Int) s = none →
             get_election_results db cache (some s) now ttl eid true
               = ⟨some ⟨e, local_tally db eid e.candidates, "database",
                     ⟨"not_found", false, none⟩⟩,
                  (get_cached_chain_results cache now ttl eid).1, 1, 0⟩)
         ∧ (∀ s cid, resolve_chain_election_id (eid : Int) s = some cid →
             fetch_results s cid = none →
             get_election_results db cache (some s) now ttl eid true
               = ⟨some ⟨e, local_tally db eid e.candidates, "database",
                     ⟨"missing", false, none⟩⟩,
                  (get_cached_chain_results cache now ttl eid).1, 1, 1⟩))) := by
  refine ⟨?_, ?_, ?_⟩
  · intro s cid u hu
    simp only [fetch_results, hu]
  · intro s cid
    unfold fetch_results
    cases s.getResultsCall cid with
    | ok r => exact Or.inr ⟨r, rfl⟩
    | error u => exact Or.inl rfl
  · intro e he hc2
    refine ⟨?_, ?_, ?_⟩
    · simp [get_election_results, he, hc2]
    · intro s hres
      simp [get_election_results, he, hc2, hres]
    · intro s cid hres hfetch
      simp [get_election_results, he, hc2, hres, hfetch]

/-- C7 witness: a reachable ledger whose getResults call fails yields a view
with status missing, database source and the local tally for the election. -/
theorem ledger_failure_fallback_witness :
    get_election_results demoDB [] (some ⟨Except.ok 5, fun _ => Except.error ()⟩) 0 30 1 true
      = ⟨some ⟨⟨1, "Test", "demo", 1, [⟨1, "Alice"⟩, ⟨2, "Bob"⟩]⟩,
            local_tally demoDB 1 [⟨1, "Alice"⟩, ⟨2, "Bob"⟩], "database",
            ⟨"missing", false, none⟩⟩, [], 1, 1⟩ :=
  ((ledger_failure_fallback demoDB [] 0 30 1).2.2
      ⟨1, "Test", "demo", 1, [⟨1, "Alice"⟩, ⟨2, "Bob"⟩]⟩ (by rfl) (by rfl)).2.2
    ⟨Except.ok 5, fun _ => Except.error ()⟩ 0 (by rfl) (by rfl)

/-- Exceptions raised out of create_election: ValueError for a missing
creator (caught by the route), MultipleResultsFound raised by
scalar_one_or_none when several candidate rows share the queried name. -/
inductive ServiceError where
  | valueError (message : String)
  | multipleResultsFound
deriving DecidableEq, Repr

/-- Embedding of scalar_one_or_none over the candidate-by-name query
(election_service.py lines 82-84): none on no match, the row on a unique
match, raised MultipleResultsFound otherwise. -/
def lookup_candidate (table : List Candidate) (name : String) :
    Except ServiceError (Option Candidate) :=
  match table.filter (fun c => c.name == name) with
  | [] => Except.ok none
  | [c] => Except.ok (some c)
  | _ :: _ :: _ => Except.error ServiceError.multipleResultsFound

/-- The candidate loop of create_election (lines 81-87) plus the primary-key
assignment done by the flush at line 90: for each name in order, reuse the
unique existing row or create a fresh one. The lookup runs against the
committed table only (the session has autoflush disabled), so rows created
earlier in the same call are not visible to it. Returns the rows linked to
the election in order, the newly created rows in creation order, and the
next candidate id. -/
def build_candidates (table : List Candidate) (nextId : Nat) :
    List String → Except ServiceError (List Candidate × List Candidate × Nat)
  | [] => Except.ok ([], [], nextId)
  | name :: rest =>
    match lookup_candidate table name with
    | Except.error e => Except.error e
    | Except.ok (some c) =>
      match build_candidates table nextId rest with
      | Except.error e => Except.error e
      | Except.ok (links, news, n) => Except.ok (c :: links, news, n)
    | Except.ok none =>
      let c : Candidate := ⟨nextId, name⟩
      match build_candidates table (nextId + 1) rest with
      | Except.error e => Except.error e
      | Except.ok (links, news, n) => Except.ok (c :: links, c :: news, n)

/-- Embedding of create_election (election_service.py lines 66-94). -/
def create_election (db : DB) (title description : String) (candidates : List String)
    (creator_wallet : String) (tx_hash : Option String) :
    Except ServiceError (DB × Election × BlockchainInfo) :=
  match db.users.find? (fun u => u.wallet_address == creator_wallet) with
  | none => Except.error (ServiceError.valueError
      "Creator not found. Authenticate before creating elections.")
  | some user =>
    match build_candidates db.candidates db.nextCandidateId candidates with
    | Except.error e => Except.error e
    | Except.ok (links, news, nextCand) =>
      let election : Election := ⟨db.nextElectionId, title, description, user.id, links⟩
      Except.ok
        ({ db with elections := db.elections ++ [election],
                   candidates := db.candidates ++ news,
                   nextElectionId := db.nextElectionId + 1,
                   nextCandidateId := nextCand },
         election, format_blockchain_info tx_hash)

/-- On a name-deduplicated table, the by-name filter is empty or a singleton. -/
theorem filter_name_small (table : List Candidate) (nm : String)
    (h : (table.map Candidate.name).Nodup) :
    table.filter (fun c => c.name == nm) = []
    ∨ ∃ c, table.filter (fun c2 => c2.name == nm) = [c] := by
  induction table with
  | nil => exact Or.inl rfl
  | cons t ts ih =>
    rw [List.map_cons, List.nodup_cons] at h
    by_cases hm : t.name = nm
    · right
      refine ⟨t, ?_⟩
      rw [List.filter_cons_of_pos (by simpa using hm)]
      have hrest : ts.filter (fun c2 => c2.name == nm) = [] := by
        rw [List.filter_eq_nil_iff]
        intro x hx
        simp only [beq_iff_eq]
        intro hxn
        apply h.1
        rw [hm, ← hxn]
        exact List.mem_map_of_mem Candidate.name hx
      rw [hrest]
    · rw [List.filter_cons_of_neg (by simpa using hm)]
      exact ih h.2

/-- A row of a name-deduplicated table is the unique result of the filter on
its own name. -/
theorem filter_name_eq_singleton (table : List Candidate) (c : Candidate) (nm : String)
    (h : (table.map Candidate.name).Nodup) (hc : c ∈ table) (hnm : c.name = nm) :
    table.filter (fun c2 => c2.name == nm) = [c] := by
  induction table with
  | nil => cases hc
  | cons t ts ih =>
    rw [List.map_cons, List.nodup_cons] at h
    rcases List.mem_cons.mp hc with rfl | hmem
    · rw [List.filter_cons_of_pos (by simpa using hnm)]
      have hrest : ts.filter (fun c2 => c2.name == nm) = [] := by
        rw [List.filter_eq_nil_iff]
        intro x hx
        simp only [beq_iff_eq]
        intro hxn
        exact h.1 (hnm ▸ hxn ▸ List.mem_map_of_mem Candidate.name hx)
      rw [hrest]
    · have htn : ¬ (t.name = nm) := by
        intro he
        exact h.1 (he ▸ hnm ▸ List.mem_map_of_mem Candidate.name hmem)
      rw [List.filter_cons_of_neg (by simpa using htn)]
      exact ih h.2 hmem

/-- Success and shape of the candidate loop on a name-deduplicated table with
duplicate-free input names: the loop succeeds, new rows carry input names that
were absent from the table, the new names are duplicate-free, and the linked
rows match the input names positionally, each taken from the table or from
the new rows. -/
theorem build_candidates_spec (table : List Candidate)
    (htable : (table.map Candidate.name).Nodup) :
    ∀ (names : List String) (n : Nat), names.Nodup →
      ∃ links news n2,
        build_candidates table n names = Except.ok (links, news, n2)
        ∧ (∀ c ∈ news, c.name ∈ names ∧ c.name ∉ table.map Candidate.name)
        ∧ (news.map Candidate.name).Nodup
        ∧ List.Forall₂ (fun nm c => (c ∈ table ∨ c ∈ news) ∧ c.name = nm) names links := by
  intro names
  induction names with
  | nil =>
    intro n _
    exact ⟨[], [], n, rfl, by simp, by simp, List.Forall₂.nil⟩
  | cons name rest ih =>
    intro n hnd
    rw [List.nodup_cons] at hnd
    rcases filter_name_small table name htable with hf | ⟨c, hf⟩
    · obtain ⟨links, news, n2, hbuild, hnews, hnewnd, hfa⟩ := ih (n + 1) hnd.2
      refine ⟨⟨n, name⟩ :: links, ⟨n, name⟩ :: news, n2, ?_, ?_, ?_, ?_⟩
      · simp only [build_candidates, lookup_candidate, hf, hbuild]
      · intro x hx
        rcases List.mem_cons.mp hx with rfl | hx2
        · refine ⟨List.mem_cons_self _ _, ?_⟩
          intro hmem
          obtain ⟨y, hy, hyn⟩ := List.mem_map.mp hmem
          have hyf : y ∈ table.filter (fun c2 => c2.name == name) :=
            List.mem_filter.mpr ⟨hy, by simpa using hyn⟩
          rw [hf] at hyf
          cases hyf
        · obtain ⟨h1, h2⟩ := hnews x hx2
          exact ⟨List.mem_cons_of_mem _ h1, h2⟩
      · rw [List.map_cons, List.nodup_cons]
        refine ⟨?_, hnewnd⟩
        intro hmem
        obtain ⟨y, hy, hyn⟩ := List.mem_map.mp hmem
        have hyn2 : y.name = name := hyn
        exact hnd.1 (hyn2 ▸ (hnews y hy).1)
      · refine List.Forall₂.cons ⟨Or.inr (List.mem_cons_self _ _), rfl⟩ ?_
        exact hfa.imp (fun nm cc hcc =>
          ⟨hcc.1.elim Or.inl (fun h2 => Or.inr (List.mem_cons_of_mem _ h2)), hcc.2⟩)
    · obtain ⟨links, news, n2, hbuild, hnews, hnewnd, hfa⟩ := ih n hnd.2
      have hcmem : c ∈ table ∧ c.name = name := by
        have hcf : c ∈ table.filter (fun c2 => c2.name == name) := by
          rw [hf]; exact List.mem_cons_self _ _
        obtain ⟨h1, h2⟩ := List.mem_filter.mp hcf
        exact ⟨h1, by simpa using h2⟩
      refine ⟨c :: links, news, n2, ?_, ?_, hnewnd, ?_⟩
      · simp only [build_candidates, lookup_candidate, hf, hbuild]
      · intro x hx
        obtain ⟨h1, h2⟩ := hnews x hx
        exact ⟨List.mem_cons_of_mem _ h1, h2⟩
      · exact List.Forall₂.cons ⟨Or.inl hcmem.1, hcmem.2⟩ hfa

/-- When every input name has exactly one row in the table, the candidate loop
links exactly those rows and creates none. -/
theorem build_candidates_all_found (table2 : List Candidate) :
    ∀ (names : List String) (links : List Candidate) (m : Nat),
      List.Forall₂ (fun nm c => table2.filter (fun x => x.name == nm) = [c]) names links →
      build_candidates table2 m names = Except.ok (links, [], m) := by
  intro names
  induction names with
  | nil =>
    intro links m h
    cases h
    rfl
  | cons name rest ih =>
    intro links m h
    cases h with
    | cons hhead htail =>
      simp only [build_candidates, lookup_candidate, hhead, ih _ m htail]

/-- Each input name owns a linked row among the links. -/
theorem forall2_filter_mem (table2 : List Candidate) (names : List String)
    (links : List Candidate)
    (h : List.Forall₂ (fun nm c => table2.filter (fun x => x.name == nm) = [c]) names links) :
    ∀ nm ∈ names, ∃ c ∈ links, table2.filter (fun x => x.name == nm) = [c] := by
  induction h with
  | nil =>
    intro nm hnm
    cases hnm
  | cons h1 h2 ih =>
    intro nm hnm
    rcases List.mem_cons.mp hnm with rfl | hmem
    · exact ⟨_, List.mem_cons_self _ _, h1⟩
    · obtain ⟨c, hc, hcf⟩ := ih nm hmem
      exact ⟨c, List.mem_cons_of_mem _ hc, hcf⟩

/-- The table extended with the newly created rows stays name-deduplicated. -/
theorem combined_nodup (table news : List Candidate) (names : List String)
    (htable : (table.map Candidate.name).Nodup)
    (hnews : ∀ c ∈ news, c.name ∈ names ∧ c.name ∉ table.map Candidate.name)
    (hnewnd : (news.map Candidate.name).Nodup) :
    ((table ++ news).map Candidate.name).Nodup := by
  rw [List.map_append, List.nodup_append]
  refine ⟨htable, hnewnd, ?_⟩
  intro x hx hxy
  obtain ⟨cy, hcy, hcyn⟩ := List.mem_map.mp hxy
  exact (hnews cy hcy).2 (hcyn ▸ hx)

/-- Positional links become unique-filter witnesses over the extended table. -/
theorem forall2_to_filter (table news : List Candidate)
    (hnd : ((table ++ news).map Candidate.name).Nodup)
    (names : List String) (links : List Candidate)
    (h : List.Forall₂ (fun nm c => (c ∈ table ∨ c ∈ news) ∧ c.name = nm) names links) :
    List.Forall₂ (fun nm c => (table ++ news).filter (fun x => x.name == nm) = [c])
      names links :=
  h.imp (fun nm c hc =>
    filter_name_eq_singleton (table ++ news) c nm hnd (List.mem_append.mpr hc.1) hc.2)

/-- C8: create_election reuses an existing Candidate row with the exact name
and creates a row only when none exists, so creating two elections with the
same duplicate-free candidate names yields two elections linked to identical
Candidate rows, the second call adding no rows. -/
theorem create_election_shares_candidate_rows
    (db : DB) (t1 d1 t2 d2 : String) (names : List String) (w : String)
    (tx1 tx2 : Option String) (user : User)
    (hu : db.users.find? (fun u => u.wallet_address == w) = some user)
    (hnames : names.Nodup)
    (htable : (db.candidates.map Candidate.name).Nodup) :
    ∃ db1 e1 b1 db2 e2 b2,
      create_election db t1 d1 names w tx1 = Except.ok (db1, e1, b1)
      ∧ create_election db1 t2 d2 names w tx2 = Except.ok (db2, e2, b2)
      ∧ e2.candidates = e1.candidates
      ∧ db2.candidates = db1.candidates
      ∧ (∀ c ∈ db.candidates, c.name ∈ names → c ∈ e1.candidates) := by
  obtain ⟨links, news, n2, hbuild, hnews, hnewnd, hfa⟩ :=
    build_candidates_spec db.candidates htable names db.nextCandidateId hnames
  have hcomb := combined_nodup db.candidates news names htable hnews hnewnd
  have hfa2 := forall2_to_filter db.candidates news hcomb names links hfa
  have h1 : create_election db t1 d1 names w tx1
      = Except.ok
          ({ db with
              elections := db.elections ++ [⟨db.nextElectionId, t1, d1, user.id, links⟩],
              candidates := db.candidates ++ news,
              nextElectionId := db.nextElectionId + 1,
              nextCandidateId := n2 },
           ⟨db.nextElectionId, t1, d1, user.id, links⟩, format_blockchain_info tx1) := by
    simp only [create_election, hu, hbuild]
  have hbuild2 : build_candidates (db.candidates ++ news) n2 names
      = Except.ok (links, [], n2) :=
    build_candidates_all_found (db.candidates ++ news) names links n2 hfa2
  have h2 : create_election
      { db with
          elections := db.elections ++ [⟨db.nextElectionId, t1, d1, user.id, links⟩],
          candidates := db.candidates ++ news,
          nextElectionId := db.nextElectionId + 1,
          nextCandidateId := n2 } t2 d2 names w tx2
      = Except.ok
          ({ db with
              elections := (db.elections ++ [⟨db.nextElectionId, t1, d1, user.id, links⟩])
                ++ [⟨db.nextElectionId + 1, t2, d2, user.id, links⟩],
              candidates := (db.candidates ++ news) ++ [],
              nextElectionId := db.nextElectionId + 1 + 1,
              nextCandidateId := n2 },
           ⟨db.nextElectionId + 1, t2, d2, user.id, links⟩, format_blockchain_info tx2) := by
    simp only [create_election, hu, hbuild2]
  refine ⟨_, _, _, _, _, _, h1, h2, rfl, by simp, ?_⟩
  intro c hc hcn
  obtain ⟨c2, hc2, hf2⟩ := forall2_filter_mem _ names links hfa2 c.name hcn
  have hf1 := filter_name_eq_singleton (db.candidates ++ news) c c.name hcomb
    (List.mem_append_left _ hc) rfl
  rw [hf1] at hf2
  injection hf2 with hcc _
  exact hcc ▸ hc2

/-- C8 witness: creating an election with Alice and Bob twice in the demo
store links both elections to the same two existing candidate rows. -/
theorem create_election_shares_candidate_rows_witness :
    ∃ db1 e1 b1 db2 e2 b2,
      create_election demoDB "T1" "d" ["Alice", "Bob"] "0xaaa" (some "0xt1")
        = Except.ok (db1, e1, b1)
      ∧ create_election db1 "T2" "d" ["Alice", "Bob"] "0xaaa" (some "0xt2")
        = Except.ok (db2, e2, b2)
      ∧ e2.candidates = e1.candidates
      ∧ db2.candidates = db1.candidates
      ∧ (∀ c ∈ demoDB.candidates, c.name ∈ ["Alice", "Bob"] → c ∈ e1.candidates) :=
  create_election_shares_candidate_rows demoDB "T1" "d" "T2" "d" ["Alice", "Bob"] "0xaaa"
    (some "0xt1") (some "0xt2") ⟨1, "0xaaa", false⟩ (by rfl) (by decide) (by decide)

/-- C9 counterexample: wallets 0xaaa and 0xAAA differ only in letter case, yet
the voter resolution used by record_vote and by login does not canonicalize
case: resolving 0xAAA against a store that holds only 0xaaa creates a second,
distinct Voter row instead of matching the existing one. -/
theorem wallet_case_counterexample :
    (resolve_user demoDB "0xaaa").2.id = 1
    ∧ (resolve_user demoDB "0xAAA").2.id = 2
    ∧ (resolve_user demoDB "0xAAA").1.users.length = 2 := by
  exact ⟨by rfl, by rfl, by rfl⟩

/-- C9 amended: wallet addresses are compared by exact, case-sensitive string
equality: an exact match returns the stored row and leaves the store
unchanged, and when no row matches exactly, even when one differs only in
letter case, a fresh Voter row is created with the wallet stored verbatim. -/
theorem resolve_user_exact_match (db : DB) (w : String) :
    (∀ u, db.users.find? (fun x => x.wallet_address == w) = some u →
        resolve_user db w = (db, u))
    ∧ ((∀ u ∈ db.users, u.wallet_address ≠ w) →
        resolve_user db w
          = ({ db with
                users := db.users ++ [⟨db.nextUserId, w, false⟩],
                nextUserId := db.nextUserId + 1 },
             ⟨db.nextUserId, w, false⟩)) := by
  constructor
  · intro u hu
    simp only [resolve_user, hu]
  · intro hall
    have hnone : db.users.find? (fun x => x.wallet_address == w) = none := by
      rw [List.find?_eq_none]
      intro x hx
      simpa using hall x hx
    simp only [resolve_user, hnone]

/-- C9 amended witness: 0xAAA does not match the stored 0xaaa, so a second row
is created. -/
theorem resolve_user_exact_match_witness :
    resolve_user demoDB "0xAAA"
      = ({ demoDB with users := demoDB.users ++ [⟨2, "0xAAA", false⟩], nextUserId := 3 },
         ⟨2, "0xAAA", false⟩) :=
  (resolve_user_exact_match demoDB "0xAAA").2 (by decide)

/-- Keyword parameters accepted by the service function create_election
(its Python signature, election_service.py lines 66-72). -/
def create_election_params : List String :=
  ["title", "description", "candidates", "creator_wallet", "tx_hash"]

/-- Keyword arguments the route handler passes at the call site
(election_routes.py lines 38-45). -/
def route_create_call_kwargs : List String :=
  ["title", "description", "candidates", "creator_wallet", "tx_hash", "chain_election_id"]

/-- The JSON payload of the creation route after request.get_json, with the
defaults the handler applies for absent keys. -/
structure CreatePayload where
  title : Option String
  description : Option String
  candidates : List String
  txHash : Option String
  chainElectionId : Option Nat
deriving Repr

/-- Responses the route can produce: a JSON body with a status code, the 201
creation response, or an exception propagating out of the handler (the
except clause catches only ValueError, so a TypeError from the call and a
MultipleResultsFound from the query are uncaught). -/
inductive RouteResult where
  | json (message : String) (code : Nat)
  | created (code : Nat)
  | typeError (message : String)
  | uncaught (message : String)
deriving DecidableEq, Repr

/-- Embedding of create_new_election (election_routes.py lines 22-48). The
call into the service layer follows CPython call semantics: a keyword
argument outside the callee parameter list raises TypeError before the
callee body runs, so nothing is persisted on that path. -/
def create_new_election (db : DB) (wallet : String) (p : CreatePayload) : DB × RouteResult :=
  if !(pyTruthyStr p.title) || p.candidates.isEmpty then
    (db, RouteResult.json "title and candidates are required" 400)
  else if !(pyTruthyStr p.txHash) then
    (db, RouteResult.json "txHash is required" 400)
  else if route_create_call_kwargs.all (fun k => create_election_params.contains k) then
    match create_election db (p.title.getD "") (p.description.getD "")
        p.candidates wallet p.txHash with
    | Except.error (ServiceError.valueError msg) => (db, RouteResult.json msg 400)
    | Except.error ServiceError.multipleResultsFound =>
      (db, RouteResult.uncaught "MultipleResultsFound")
    | Except.ok (db2, _, _) => (db2, RouteResult.created 201)
  else
    (db, RouteResult.typeError
      "create_election got an unexpected keyword argument chain_election_id")

/-- C10: the creation route passes chain_election_id to a service function
whose signature does not accept it, so every invocation leaves the store
unchanged and never returns the 201 success response: each input either fails
a field validation with a 400 or raises TypeError at the service call. -/
theorem create_route_never_succeeds (db : DB) (wallet : String) (p : CreatePayload) :
    (create_new_election db wallet p).1 = db
    ∧ (create_new_election db wallet p).2 ≠ RouteResult.created 201
    ∧ ((create_new_election db wallet p).2
          = RouteResult.typeError
              "create_election got an unexpected keyword argument chain_election_id"
        ∨ (create_new_election db wallet p).2
          = RouteResult.json "title and candidates are required" 400
        ∨ (create_new_election db wallet p).2 = RouteResult.json "txHash is required" 400) := by
  unfold create_new_election
  have hk : route_create_call_kwargs.all (fun k => create_election_params.contains k) = false := by
    decide
  rw [hk]
  split_ifs <;> simp_all

/-- C10 witness: a fully valid payload still yields TypeError, the 201 success
response is unreachable, and the store is untouched. -/
theorem create_route_never_succeeds_witness :
    (create_new_election demoDB "0xaaa"
        ⟨some "T", some "d", ["Alice"], some "0xt", some 0⟩).1 = demoDB
    ∧ (create_new_election demoDB "0xaaa"
        ⟨some "T", some "d", ["Alice"], some "0xt", some 0⟩).2 ≠ RouteResult.created 201 :=
  ⟨(create_route_never_succeeds demoDB "0xaaa"
      ⟨some "T", some "d", ["Alice"], some "0xt", some 0⟩).1,
   (create_route_never_succeeds demoDB "0xaaa"
      ⟨some "T", some "d", ["Alice"], some "0xt", some 0⟩).2.1⟩
